import Mathlib

/-!
Verification development for the open-personality confidence-merge core.

Shallow embedding of the TypeScript sources of the repository:
* packages/core/src/types.ts        — data model
* packages/core/src/confidence.ts   — mergeFacets / detectDrift
* packages/core/src/templates.ts    — formatFacetDisplay / facet table cell
* packages/mcp-server/src/lib/fs-store.ts        — FsProfileStore.save (version guard)
* packages/mcp-server/src/tools/update-profile.ts — the two update_profile variants

Numbers are embedded as exact rationals (the arithmetic of the spec); JS objects
(Record<string, T>) are embedded as functions String → Option T, and the
iteration of Object.entries over an incoming record as a list of key/value
pairs whose keys are pairwise distinct (JS object keys are unique).
-/

namespace OpenPersonality

/-- Binary facet value, from types.ts: type FacetValue = 'a' | 'b'. -/
inductive FacetValue where
  | a : FacetValue
  | b : FacetValue
deriving DecidableEq

/-- Facet value with confidence score (types.ts FacetWithConfidence). -/
structure FacetWithConfidence where
  value : FacetValue
  confidence : ℚ
deriving DecidableEq

/-- Single history entry for a facet change (types.ts FacetHistoryEntry).
The source field named at (an ISO-8601 timestamp) is called atTime here
because at is a reserved word in Lean. -/
structure FacetHistoryEntry where
  value : FacetValue
  confidence : ℚ
  source : String
  atTime : String
deriving DecidableEq

/-- Facet with full history (types.ts FacetWithHistory). -/
structure FacetWithHistory where
  value : FacetValue
  confidence : ℚ
  history : List FacetHistoryEntry
deriving DecidableEq

/-- Previous/current pair inside a change record (types.ts, the inline
object type of FacetChangeResult.previous and .current). -/
structure FacetSnapshot where
  value : FacetValue
  confidence : ℚ
deriving DecidableEq

/-- Result of merging a single facet update (types.ts FacetChangeResult). -/
structure FacetChangeResult where
  facet : String
  previous : FacetSnapshot
  current : FacetSnapshot
  reason : String
deriving DecidableEq

/-- Drift warning from update_profile (types.ts DriftWarning). -/
structure DriftWarning where
  facet : String
  message : String
deriving DecidableEq

/-- A JS Record<string, FacetWithHistory>, embedded as an optional-valued map. -/
def FacetMap : Type := String → Option FacetWithHistory

/-- Rendering of a rational to two decimal places; embeds the JS
number.toFixed(2) used in the drift message (message text only, no claim
depends on its digits). -/
def toFixed2 (q : ℚ) : String :=
  let n : ℤ := round (q * 100)
  let sign := if n < 0 then "-" else ""
  let m := n.natAbs
  let fp := m % 100
  let fs := if fp < 10 then "0" ++ toString fp else toString fp
  sign ++ toString (m / 100) ++ "." ++ fs

/-- Rendering of a facet value used inside the drift message. -/
def FacetValue.str : FacetValue → String
  | FacetValue.a => "a"
  | FacetValue.b => "b"

/-- Message of the per-facet drift warning (confidence.ts line 145). -/
def driftFlipMessage (change : FacetChangeResult) : String :=
  "Facet " ++ change.facet ++ " flipped from \"" ++ change.previous.value.str ++
    "\" to \"" ++ change.current.value.str ++ "\" with similar confidence (" ++
    toFixed2 change.previous.confidence ++ " → " ++
    toFixed2 change.current.confidence ++ "). Consider verifying with the user."

/-- Message of the mass-flip warning (confidence.ts line 157). -/
def massFlipMessage (n : ℕ) : String :=
  toString n ++ " facets changed in a single update. A full profile review is recommended."

/-- Condition of the per-facet drift rule, verbatim from confidence.ts
lines 138-142: value flipped, real prior belief, and |Δconfidence| < 0.2
(0.2 = 1/5 exactly). -/
def driftQualifies (change : FacetChangeResult) : Prop :=
  change.previous.value ≠ change.current.value ∧
    0 < change.previous.confidence ∧
    |change.current.confidence - change.previous.confidence| < 1/5

instance : DecidablePred driftQualifies := fun change => by
  unfold driftQualifies; infer_instance

/-- Flip condition of the mass-flip rule, verbatim from confidence.ts
lines 150-151 (no confidence-delta threshold). -/
def flippedPred (c : FacetChangeResult) : Prop :=
  c.previous.value ≠ c.current.value ∧ 0 < c.previous.confidence

instance : DecidablePred flippedPred := fun c => by
  unfold flippedPred; infer_instance

/-- Count of flipped records in a batch (confidence.ts lines 150-152). -/
def flippedCount (changes : List FacetChangeResult) : ℕ :=
  (changes.filter fun c => decide (flippedPred c)).length

/-- detectDrift, embedded from confidence.ts lines 134-162: push one warning
per qualifying record, in batch order, then possibly one _global warning. -/
def detectDrift (changes : List FacetChangeResult) : List DriftWarning :=
  let warnings := changes.foldl
    (fun ws change =>
      if driftQualifies change then
        ws ++ [{ facet := change.facet, message := driftFlipMessage change }]
      else ws) []
  if 3 ≤ flippedCount changes then
    warnings ++ [{ facet := "_global", message := massFlipMessage (flippedCount changes) }]
  else warnings

/-- Clamp of the incoming confidence (confidence.ts line 41). -/
def clampConf (c : ℚ) : ℚ := max 0 (min 1 c)

/-- Probabilistic OR combination for a reinforcing observation
(confidence.ts line 85). -/
def combineConf (oldConf newConf : ℚ) : ℚ :=
  1 - (1 - oldConf) * (1 - newConf)

/-- Pointwise update of a facet map (the JS assignment merged[k] = v). -/
def setFacet (m : FacetMap) (k : String) (v : FacetWithHistory) : FacetMap :=
  fun q => if q = k then some v else m q

/-- Decision chain of mergeFacets for a key with an existing belief
(confidence.ts lines 72-98), producing (resultValue, resultConf, reason);
newConf is the already-clamped incoming confidence. -/
def decideMerge (obs : FacetWithConfidence) (ex : FacetWithHistory)
    (newConf : ℚ) : FacetValue × ℚ × String :=
  if newConf = 1 then (obs.value, 1, "user_confirmed")
  else if ex.confidence = 1 then (ex.value, 1, "existing_user_confirmed")
  else if obs.value = ex.value then
    (ex.value, combineConf ex.confidence newConf, "confidence_boost")
  else if ex.confidence < newConf then
    (obs.value, newConf, "higher_confidence_override")
  else (ex.value, ex.confidence, "existing_retained")

/-- Logic of one loop iteration of mergeFacets (confidence.ts lines 40-119)
for the key k, given the belief stored for k at that moment: the resulting
belief for k, and the change record pushed for k (none exactly when the
source takes the no-write path, i.e. resultValue = oldValue and
resultConf = oldConf).  The none branch adopts the clamped incoming
observation with one tagged history entry and reason new_facet; the some
branch is the decision chain of lines 72-98 followed by the change test of
line 101. -/
def mergeEntry (source now k : String) (old? : Option FacetWithHistory)
    (obs : FacetWithConfidence) : FacetWithHistory × Option FacetChangeResult :=
  let newConf := clampConf obs.confidence
  match old? with
  | none =>
      ({ value := obs.value, confidence := newConf,
         history := [{ value := obs.value, confidence := newConf,
                       source := source, atTime := now }] },
       some { facet := k,
              previous := { value := obs.value, confidence := 0 },
              current := { value := obs.value, confidence := newConf },
              reason := "new_facet" })
  | some ex =>
      let r := decideMerge obs ex newConf
      if r.1 ≠ ex.value ∨ r.2.1 ≠ ex.confidence then
        ({ value := r.1, confidence := r.2.1,
           history := ex.history ++ [{ value := r.1, confidence := r.2.1,
                                       source := source, atTime := now }] },
         some { facet := k,
                previous := { value := ex.value, confidence := ex.confidence },
                current := { value := r.1, confidence := r.2.1 },
                reason := r.2.2 })
      else (ex, none)

/-- Body of the for-loop of mergeFacets (confidence.ts lines 40-120), acting
on the accumulated (merged, changes) state for one incoming entry: run the
per-entry logic against the belief currently stored for that key, then
perform the write and the push exactly when a change record was produced
(the source writes merged[k] and pushes in the same branches). -/
def mergeStep (source now : String)
    (st : FacetMap × List FacetChangeResult)
    (entry : String × FacetWithConfidence) :
    FacetMap × List FacetChangeResult :=
  match mergeEntry source now entry.1 (st.1 entry.1) entry.2 with
  | (b, some rec) => (setFacet st.1 entry.1 b, st.2 ++ [rec])
  | (_, none) => st

/-- Result record of mergeFacets. -/
structure MergeResult where
  merged : FacetMap
  changes : List FacetChangeResult
  driftWarnings : List DriftWarning

/-- mergeFacets, embedded from confidence.ts lines 27-125.  The JS object
spread that copies existing into merged is the identity in this pure
embedding; the timestamp now (new Date().toISOString()) is a parameter. -/
def mergeFacets (existing : FacetMap)
    (incoming : List (String × FacetWithConfidence))
    (source : String) (now : String) : MergeResult :=
  let st := incoming.foldl (mergeStep source now) (existing, [])
  { merged := st.1, changes := st.2, driftWarnings := detectDrift st.2 }

/-- When the per-entry logic produces no change record, the key had an
existing belief and that belief is returned untouched. -/
theorem mergeEntry_none (source now k : String) (old? : Option FacetWithHistory)
    (obs : FacetWithConfidence)
    (h : (mergeEntry source now k old? obs).2 = none) :
    old? = some (mergeEntry source now k old? obs).1 := by
  unfold mergeEntry at h ⊢
  cases old? with
  | none => simp at h
  | some ex =>
    simp only at h ⊢
    split at h
    next => simp at h
    next hcond => rw [if_neg hcond]

theorem mergeStep_fst_self (source now k : String) (st : FacetMap × List FacetChangeResult)
    (obs : FacetWithConfidence) :
    (mergeStep source now st (k, obs)).1 k =
      some (mergeEntry source now k (st.1 k) obs).1 := by
  unfold mergeStep
  cases hrec : (mergeEntry source now k (st.1 k) obs).2 with
  | some r =>
    have : mergeEntry source now k (st.1 k) obs =
        ((mergeEntry source now k (st.1 k) obs).1, some r) := by
      rw [← hrec]
    rw [this]
    simp [setFacet]
  | none =>
    have : mergeEntry source now k (st.1 k) obs =
        ((mergeEntry source now k (st.1 k) obs).1, none) := by
      rw [← hrec]
    rw [this]
    exact mergeEntry_none source now k (st.1 k) obs hrec

theorem mergeStep_fst_other (source now k q : String)
    (st : FacetMap × List FacetChangeResult) (obs : FacetWithConfidence)
    (hq : q ≠ k) :
    (mergeStep source now st (k, obs)).1 q = st.1 q := by
  unfold mergeStep
  cases hrec : (mergeEntry source now k (st.1 k) obs).2 with
  | some r =>
    have : mergeEntry source now k (st.1 k) obs =
        ((mergeEntry source now k (st.1 k) obs).1, some r) := by
      rw [← hrec]
    rw [this]
    simp [setFacet, hq]
  | none =>
    have : mergeEntry source now k (st.1 k) obs =
        ((mergeEntry source now k (st.1 k) obs).1, none) := by
      rw [← hrec]
    rw [this]

theorem mergeStep_snd (source now k : String) (st : FacetMap × List FacetChangeResult)
    (obs : FacetWithConfidence) :
    (mergeStep source now st (k, obs)).2 =
      st.2 ++ (mergeEntry source now k (st.1 k) obs).2.toList := by
  unfold mergeStep
  cases hrec : (mergeEntry source now k (st.1 k) obs).2 with
  | some r =>
    have : mergeEntry source now k (st.1 k) obs =
        ((mergeEntry source now k (st.1 k) obs).1, some r) := by
      rw [← hrec]
    rw [this]
    simp
  | none =>
    have : mergeEntry source now k (st.1 k) obs =
        ((mergeEntry source now k (st.1 k) obs).1, none) := by
      rw [← hrec]
    rw [this]
    simp

theorem mergeEntry_facet (source now k : String) (old? : Option FacetWithHistory)
    (obs : FacetWithConfidence) (c : FacetChangeResult)
    (hc : (mergeEntry source now k old? obs).2 = some c) : c.facet = k := by
  unfold mergeEntry at hc
  cases old? with
  | none => simp at hc; simp [← hc]
  | some ex =>
    simp only at hc
    split at hc
    · simp at hc; simp [← hc]
    · simp at hc

theorem foldl_merged_not_mem (source now : String) (l : List (String × FacetWithConfidence))
    (st : FacetMap × List FacetChangeResult) (k : String)
    (hk : k ∉ l.map Prod.fst) :
    (l.foldl (mergeStep source now) st).1 k = st.1 k := by
  induction l generalizing st with
  | nil => rfl
  | cons e t ih =>
    simp only [List.map_cons, List.mem_cons] at hk
    push_neg at hk
    rw [List.foldl_cons, ih _ hk.2]
    have : (k, e.2) = e ∨ True := Or.inr trivial
    calc (mergeStep source now st e).1 k
        = (mergeStep source now st (e.1, e.2)).1 k := by rfl
      _ = st.1 k := mergeStep_fst_other source now e.1 k st e.2 hk.1

theorem foldl_changes_facets (source now : String) (l : List (String × FacetWithConfidence))
    (st : FacetMap × List FacetChangeResult) (c : FacetChangeResult)
    (hc : c ∈ (l.foldl (mergeStep source now) st).2) :
    c ∈ st.2 ∨ c.facet ∈ l.map Prod.fst := by
  induction l generalizing st with
  | nil => exact Or.inl hc
  | cons e t ih =>
    rw [List.foldl_cons] at hc
    rcases ih _ hc with h | h
    · have hsnd : (mergeStep source now st (e.1, e.2)).2 =
          st.2 ++ (mergeEntry source now e.1 (st.1 e.1) e.2).2.toList :=
        mergeStep_snd source now e.1 st e.2
      rw [show (mergeStep source now st e) = (mergeStep source now st (e.1, e.2)) from rfl,
        hsnd, List.mem_append] at h
      rcases h with h | h
      · exact Or.inl h
      · cases hrec : (mergeEntry source now e.1 (st.1 e.1) e.2).2 with
        | none => rw [hrec] at h; simp at h
        | some r =>
          rw [hrec] at h; simp at h
          right
          rw [List.map_cons, List.mem_cons]
          left
          rw [h]
          exact mergeEntry_facet source now e.1 (st.1 e.1) e.2 r hrec
    · right
      rw [List.map_cons, List.mem_cons]
      exact Or.inr h

theorem foldl_changes_filter_not_mem (source now : String)
    (l : List (String × FacetWithConfidence))
    (st : FacetMap × List FacetChangeResult) (k : String)
    (hk : k ∉ l.map Prod.fst) :
    ((l.foldl (mergeStep source now) st).2).filter (fun c => c.facet == k) =
      st.2.filter (fun c => c.facet == k) := by
  induction l generalizing st with
  | nil => rfl
  | cons e t ih =>
    simp only [List.map_cons, List.mem_cons] at hk
    push_neg at hk
    rw [List.foldl_cons, ih _ hk.2]
    rw [show (mergeStep source now st e) = (mergeStep source now st (e.1, e.2)) from rfl,
      mergeStep_snd source now e.1 st e.2, List.filter_append]
    cases hrec : (mergeEntry source now e.1 (st.1 e.1) e.2).2 with
    | none => simp
    | some r =>
      have hf : r.facet = e.1 := mergeEntry_facet source now e.1 (st.1 e.1) e.2 r hrec
      simp [hf, Ne.symm hk.1]

theorem foldl_merged_mem (source now : String) (l : List (String × FacetWithConfidence))
    (st : FacetMap × List FacetChangeResult) (k : String) (obs : FacetWithConfidence)
    (hn : (l.map Prod.fst).Nodup) (hm : (k, obs) ∈ l) :
    (l.foldl (mergeStep source now) st).1 k =
      some (mergeEntry source now k (st.1 k) obs).1 := by
  induction l generalizing st with
  | nil => cases hm
  | cons e t ih =>
    rw [List.map_cons, List.nodup_cons] at hn
    rw [List.mem_cons] at hm
    rcases hm with hm | hm
    · rw [List.foldl_cons, ← hm]
      have hk : k ∉ t.map Prod.fst := by
        rw [← hm] at hn; exact hn.1
      rw [foldl_merged_not_mem source now t _ k hk]
      exact mergeStep_fst_self source now k st obs
    · have hkt : k ∈ t.map Prod.fst := by
        exact List.mem_map_of_mem Prod.fst hm
      have hke : k ≠ e.1 := fun h => hn.1 (h ▸ hkt)
      rw [List.foldl_cons]
      rw [ih _ hn.2 hm]
      rw [show (mergeStep source now st e) = (mergeStep source now st (e.1, e.2)) from rfl,
        mergeStep_fst_other source now e.1 k st e.2 hke]

theorem foldl_changes_mem (source now : String) (l : List (String × FacetWithConfidence))
    (st : FacetMap × List FacetChangeResult) (k : String) (obs : FacetWithConfidence)
    (hn : (l.map Prod.fst).Nodup) (hm : (k, obs) ∈ l) :
    ((l.foldl (mergeStep source now) st).2).filter (fun c => c.facet == k) =
      st.2.filter (fun c => c.facet == k) ++
        (mergeEntry source now k (st.1 k) obs).2.toList := by
  induction l generalizing st with
  | nil => cases hm
  | cons e t ih =>
    rw [List.map_cons, List.nodup_cons] at hn
    rw [List.mem_cons] at hm
    rcases hm with hm | hm
    · rw [List.foldl_cons, ← hm]
      have hk : k ∉ t.map Prod.fst := by
        rw [← hm] at hn; exact hn.1
      rw [foldl_changes_filter_not_mem source now t _ k hk]
      rw [show (mergeStep source now st (k, obs)) =
        (mergeStep source now st ((k, obs).1, (k, obs).2)) from rfl,
        mergeStep_snd source now k st obs, List.filter_append]
      congr 1
      cases hrec : (mergeEntry source now k (st.1 k) obs).2 with
      | none => simp
      | some r =>
        have hf : r.facet = k := mergeEntry_facet source now k (st.1 k) obs r hrec
        simp [hf]
    · have hkt : k ∈ t.map Prod.fst := List.mem_map_of_mem Prod.fst hm
      have hke : k ≠ e.1 := fun h => hn.1 (h ▸ hkt)
      rw [List.foldl_cons, ih _ hn.2 hm]
      rw [show (mergeStep source now st e) = (mergeStep source now st (e.1, e.2)) from rfl,
        mergeStep_snd source now e.1 st e.2, mergeStep_fst_other source now e.1 k st e.2 hke,
        List.filter_append]
      congr 2
      cases hrec : (mergeEntry source now e.1 (st.1 e.1) e.2).2 with
      | none => simp
      | some r =>
        have hf : r.facet = e.1 := mergeEntry_facet source now e.1 (st.1 e.1) e.2 r hrec
        simp [hf, Ne.symm hke]

/-- Localization of mergeFacets at one incoming key: the merged belief and
the change records for that key are those of its own loop iteration, run
against the existing belief (JS object keys are pairwise distinct, which is
the Nodup hypothesis). -/
theorem mergeFacets_at_key (existing : FacetMap)
    (incoming : List (String × FacetWithConfidence)) (source now k : String)
    (obs : FacetWithConfidence)
    (hn : (incoming.map Prod.fst).Nodup) (hm : (k, obs) ∈ incoming) :
    (mergeFacets existing incoming source now).merged k =
        some (mergeEntry source now k (existing k) obs).1 ∧
      ((mergeFacets existing incoming source now).changes).filter
          (fun c => c.facet == k) =
        (mergeEntry source now k (existing k) obs).2.toList := by
  constructor
  · exact foldl_merged_mem source now incoming (existing, []) k obs hn hm
  · have h := foldl_changes_mem source now incoming (existing, []) k obs hn hm
    simpa using h

/-- The warning pushed for one qualifying change record. -/
def perTraitWarning (change : FacetChangeResult) : DriftWarning :=
  { facet := change.facet, message := driftFlipMessage change }

/-- The per-trait warnings of a batch, as an order-preserving selection. -/
def perTraitWarningList (changes : List FacetChangeResult) : List DriftWarning :=
  (changes.filter fun c => decide (driftQualifies c)).map perTraitWarning

theorem foldl_push_filter {α β : Type} (P : α → Prop) [DecidablePred P] (f : α → β) :
    ∀ (l : List α) (acc : List β),
      l.foldl (fun ws c => if P c then ws ++ [f c] else ws) acc =
        acc ++ (l.filter fun c => decide (P c)).map f := by
  intro l
  induction l with
  | nil => intro acc; simp
  | cons x t ih =>
    intro acc
    rw [List.foldl_cons, ih]
    by_cases hx : P x
    · simp [hx]
    · simp [hx]

/-- Structure of detectDrift: the per-trait warnings in batch order,
followed by the _global warning exactly when at least three records
flipped a real prior belief. -/
theorem detectDrift_eq (changes : List FacetChangeResult) :
    detectDrift changes =
      perTraitWarningList changes ++
        (if 3 ≤ flippedCount changes then
          [{ facet := "_global", message := massFlipMessage (flippedCount changes) }]
        else []) := by
  unfold detectDrift perTraitWarningList perTraitWarning
  rw [foldl_push_filter driftQualifies
    (fun change => ({ facet := change.facet, message := driftFlipMessage change } : DriftWarning))]
  by_cases h : 3 ≤ flippedCount changes
  · simp [h]
  · simp [h]

theorem flippedCount_le (changes : List FacetChangeResult) :
    flippedCount changes ≤ changes.length :=
  List.length_filter_le _ _

/-- Record a of the concrete boundary batches: a flip with confidence delta
exactly 0.2 (0.5 to 0.7). -/
def boundaryFlipRecord : FacetChangeResult :=
  { facet := "facet_1",
    previous := { value := FacetValue.a, confidence := 1/2 },
    current := { value := FacetValue.b, confidence := 7/10 },
    reason := "higher_confidence_override" }

/-- A new_facet record: previous confidence 0. -/
def newFacetRecord : FacetChangeResult :=
  { facet := "facet_2",
    previous := { value := FacetValue.a, confidence := 0 },
    current := { value := FacetValue.a, confidence := 1/10 },
    reason := "new_facet" }

/-- A flip of a real prior belief with a large confidence delta (qualifies
for the mass-flip count but not for the per-trait warning). -/
def bigDeltaFlip (k : String) : FacetChangeResult :=
  { facet := k,
    previous := { value := FacetValue.a, confidence := 3/10 },
    current := { value := FacetValue.b, confidence := 4/5 },
    reason := "higher_confidence_override" }

theorem flippedPred_bigDeltaFlip (k : String) : flippedPred (bigDeltaFlip k) := by
  constructor
  · simp [bigDeltaFlip]
  · norm_num [bigDeltaFlip]

/-- Concrete batch with exactly two qualifying flips. -/
def twoFlipBatch : List FacetChangeResult :=
  [bigDeltaFlip "facet_1", bigDeltaFlip "facet_2"]

/-- Concrete batch with exactly three qualifying flips. -/
def threeFlipBatch : List FacetChangeResult :=
  [bigDeltaFlip "facet_1", bigDeltaFlip "facet_2", bigDeltaFlip "facet_3"]

/-- C3.  detectDrift emits one per-trait warning per change record whose
value flipped with a real prior belief (previous confidence strictly
positive) and whose absolute confidence delta is strictly below 0.2, in
batch order, before the optional _global warning; in particular a flip with
delta exactly 0.2 and a new_facet record (previous confidence 0) produce no
per-trait warning, and several qualifying records each produce their own
warning. -/
theorem detectDrift_per_trait_rule :
    (∀ changes : List FacetChangeResult,
      detectDrift changes =
        ((changes.filter fun c =>
            decide (c.previous.value ≠ c.current.value ∧
              0 < c.previous.confidence ∧
              |c.current.confidence - c.previous.confidence| < 1/5)).map
          (fun c => { facet := c.facet, message := driftFlipMessage c })) ++
          (if 3 ≤ flippedCount changes then
            [{ facet := "_global", message := massFlipMessage (flippedCount changes) }]
          else [])) ∧
    detectDrift [boundaryFlipRecord] = [] ∧
    detectDrift [newFacetRecord] = [] := by
  refine ⟨fun changes => ?_, ?_, ?_⟩
  · rw [detectDrift_eq]
    rfl
  · rw [detectDrift_eq]
    have hq : ¬ driftQualifies boundaryFlipRecord := by
      simp only [driftQualifies, boundaryFlipRecord, abs_sub_lt_iff]
      norm_num
    have hc : flippedCount [boundaryFlipRecord] ≤ 1 := by
      simpa using flippedCount_le [boundaryFlipRecord]
    rw [if_neg (by omega)]
    simp [perTraitWarningList, decide_eq_false hq]
  · rw [detectDrift_eq]
    have hq : ¬ driftQualifies newFacetRecord := by
      simp only [driftQualifies, newFacetRecord]
      norm_num
    have hc : flippedCount [newFacetRecord] ≤ 1 := by
      simpa using flippedCount_le [newFacetRecord]
    rw [if_neg (by omega)]
    simp [perTraitWarningList, decide_eq_false hq]

/-- C4.  The _global warning is emitted, once and at the end, exactly when
at least three records flipped a real prior belief (regardless of the
confidence-delta threshold); with fewer than three such flips the output is
the per-trait warnings alone. -/
theorem detectDrift_mass_flip_rule (changes : List FacetChangeResult) :
    (3 ≤ flippedCount changes →
      detectDrift changes =
        perTraitWarningList changes ++
          [{ facet := "_global", message := massFlipMessage (flippedCount changes) }]) ∧
    (flippedCount changes < 3 → detectDrift changes = perTraitWarningList changes) := by
  constructor
  · intro h
    rw [detectDrift_eq, if_pos h]
  · intro h
    rw [detectDrift_eq, if_neg (by omega), List.append_nil]

/-- Witness for C4 at the concrete two-flip and three-flip batches: exactly
two qualifying flips yield no _global warning, exactly three append one. -/
theorem detectDrift_mass_flip_rule_witness :
    detectDrift twoFlipBatch = perTraitWarningList twoFlipBatch ∧
    detectDrift threeFlipBatch =
      perTraitWarningList threeFlipBatch ++
        [{ facet := "_global", message := massFlipMessage (flippedCount threeFlipBatch) }] := by
  constructor
  · refine (detectDrift_mass_flip_rule twoFlipBatch).2 ?_
    simp [flippedCount, twoFlipBatch, flippedPred_bigDeltaFlip]
  · refine (detectDrift_mass_flip_rule threeFlipBatch).1 ?_
    simp [flippedCount, threeFlipBatch, flippedPred_bigDeltaFlip]

/-- C10.  Warning order: the facet keys of detectDrift are the facet keys of
the qualifying change records in their batch order, with "_global" as the
single final element exactly when the mass-flip rule fires; in that case the
_global warning is the last element of the list. -/
theorem detectDrift_order (changes : List FacetChangeResult) :
    (detectDrift changes).map DriftWarning.facet =
      ((changes.filter fun c => decide (driftQualifies c)).map FacetChangeResult.facet) ++
        (if 3 ≤ flippedCount changes then ["_global"] else []) ∧
    (3 ≤ flippedCount changes →
      (detectDrift changes).getLast? =
        some { facet := "_global", message := massFlipMessage (flippedCount changes) }) := by
  constructor
  · rw [detectDrift_eq]
    by_cases h : 3 ≤ flippedCount changes
    · simp [h, perTraitWarningList, perTraitWarning]
    · simp [h, perTraitWarningList, perTraitWarning]
  · intro h
    rw [detectDrift_eq, if_pos h]
    rw [List.getLast?_concat]

/-- Witness for C10 at the three-flip batch. -/
theorem detectDrift_order_witness :
    (detectDrift threeFlipBatch).getLast? =
      some { facet := "_global", message := massFlipMessage (flippedCount threeFlipBatch) } :=
  (detectDrift_order threeFlipBatch).2 (by
    simp [flippedCount, threeFlipBatch, flippedPred_bigDeltaFlip])

/-- C1.  Per-key behaviour of mergeFacets: an unseen trait adopts the
clamped incoming observation with one tagged history entry and a new_facet
change record whose previous confidence is 0; a trait with an existing
belief is decided by the first matching rule of the chain (user_confirmed,
existing_user_confirmed, confidence_boost with 1-(1-old)(1-new),
higher-confidence override with strict newConf > oldConf, else existing
retained), and whenever the decided pair differs from the stored pair the
change record carries the reason of that rule. -/
theorem mergeFacets_per_key_rules (existing : FacetMap)
    (incoming : List (String × FacetWithConfidence)) (source now k : String)
    (obs : FacetWithConfidence)
    (hn : (incoming.map Prod.fst).Nodup) (hm : (k, obs) ∈ incoming) :
    (existing k = none →
      (mergeFacets existing incoming source now).merged k =
        some { value := obs.value, confidence := max 0 (min 1 obs.confidence),
               history := [{ value := obs.value,
                             confidence := max 0 (min 1 obs.confidence),
                             source := source, atTime := now }] } ∧
      ({ facet := k,
         previous := { value := obs.value, confidence := 0 },
         current := { value := obs.value, confidence := max 0 (min 1 obs.confidence) },
         reason := "new_facet" } : FacetChangeResult) ∈
        (mergeFacets existing incoming source now).changes) ∧
    (∀ ex rv rc reason, existing k = some ex →
      (rv, rc, reason) =
        (if max 0 (min 1 obs.confidence) = 1 then (obs.value, (1 : ℚ), "user_confirmed")
         else if ex.confidence = 1 then (ex.value, (1 : ℚ), "existing_user_confirmed")
         else if obs.value = ex.value then
           (ex.value, 1 - (1 - ex.confidence) * (1 - max 0 (min 1 obs.confidence)),
            "confidence_boost")
         else if ex.confidence < max 0 (min 1 obs.confidence) then
           (obs.value, max 0 (min 1 obs.confidence), "higher_confidence_override")
         else (ex.value, ex.confidence, "existing_retained")) →
      (∃ b, (mergeFacets existing incoming source now).merged k = some b ∧
        b.value = rv ∧ b.confidence = rc) ∧
      (rv ≠ ex.value ∨ rc ≠ ex.confidence →
        ({ facet := k,
           previous := { value := ex.value, confidence := ex.confidence },
           current := { value := rv, confidence := rc },
           reason := reason } : FacetChangeResult) ∈
          (mergeFacets existing incoming source now).changes)) := by
  obtain ⟨hmerged, hchanges⟩ :=
    mergeFacets_at_key existing incoming source now k obs hn hm
  constructor
  · intro hnone
    rw [hnone] at hmerged hchanges
    refine ⟨by rw [hmerged]; rfl, ?_⟩
    have hmem : ({ facet := k,
                   previous := { value := obs.value, confidence := 0 },
                   current := { value := obs.value,
                                confidence := max 0 (min 1 obs.confidence) },
                   reason := "new_facet" } : FacetChangeResult) ∈
        ((mergeFacets existing incoming source now).changes).filter
          (fun c => c.facet == k) := by
      rw [hchanges]
      simp [mergeEntry, clampConf]
    exact List.mem_of_mem_filter hmem
  · intro ex rv rc reason hex hr
    rw [hex] at hmerged hchanges
    have hd : (rv, rc, reason) = decideMerge obs ex (clampConf obs.confidence) := hr
    have h1 : rv = (decideMerge obs ex (clampConf obs.confidence)).1 :=
      congrArg Prod.fst hd
    have h2 : rc = (decideMerge obs ex (clampConf obs.confidence)).2.1 :=
      congrArg (fun p => p.2.1) hd
    have h3 : reason = (decideMerge obs ex (clampConf obs.confidence)).2.2 :=
      congrArg (fun p => p.2.2) hd
    by_cases hch : (decideMerge obs ex (clampConf obs.confidence)).1 ≠ ex.value ∨
        (decideMerge obs ex (clampConf obs.confidence)).2.1 ≠ ex.confidence
    · have hme : mergeEntry source now k (some ex) obs =
          ({ value := (decideMerge obs ex (clampConf obs.confidence)).1,
             confidence := (decideMerge obs ex (clampConf obs.confidence)).2.1,
             history := ex.history ++
               [{ value := (decideMerge obs ex (clampConf obs.confidence)).1,
                  confidence := (decideMerge obs ex (clampConf obs.confidence)).2.1,
                  source := source, atTime := now }] },
           some { facet := k,
                  previous := { value := ex.value, confidence := ex.confidence },
                  current := { value := (decideMerge obs ex (clampConf obs.confidence)).1,
                               confidence := (decideMerge obs ex (clampConf obs.confidence)).2.1 },
                  reason := (decideMerge obs ex (clampConf obs.confidence)).2.2 }) := by
        simp only [mergeEntry]
        rw [if_pos hch]
      constructor
      · refine ⟨(mergeEntry source now k (some ex) obs).1, hmerged, ?_, ?_⟩
        · rw [hme]; exact h1.symm
        · rw [hme]; exact h2.symm
      · intro _
        have hmem : ({ facet := k,
                       previous := { value := ex.value, confidence := ex.confidence },
                       current := { value := rv, confidence := rc },
                       reason := reason } : FacetChangeResult) ∈
            ((mergeFacets existing incoming source now).changes).filter
              (fun c => c.facet == k) := by
          rw [hchanges, hme, h1, h2, h3]
          simp
        exact List.mem_of_mem_filter hmem
    · push_neg at hch
      have hme : mergeEntry source now k (some ex) obs = (ex, none) := by
        simp only [mergeEntry]
        rw [if_neg]
        push_neg
        exact hch
      constructor
      · exact ⟨ex, by rw [hmerged, hme], by rw [h1, hch.1], by rw [h2, hch.2]⟩
      · intro habs
        rcases habs with h | h
        · exact absurd (by rw [h1, hch.1]) h
        · exact absurd (by rw [h2, hch.2]) h

/-- Witness for C1: merging ("facet_1", a, 0.5) into an existing belief
(a, 0.6) reinforces it to confidence 0.8 = 1 - 0.4 * 0.5. -/
def exWitnessMap : FacetMap :=
  fun q => if q = "facet_1" then
    some { value := FacetValue.a, confidence := 3/5, history := [] }
  else none

/-- Incoming batch for the witnesses. -/
def incWitness : List (String × FacetWithConfidence) :=
  [("facet_1", { value := FacetValue.a, confidence := 1/2 })]

theorem clampHalf : max (0:ℚ) (min 1 (1/2)) = 1/2 := by
  rw [min_eq_right (by norm_num : (1:ℚ)/2 ≤ 1), max_eq_right (by norm_num : (0:ℚ) ≤ 1/2)]

theorem mergeFacets_per_key_rules_witness :
    ∃ b, (mergeFacets exWitnessMap incWitness "test" "t0").merged "facet_1" = some b ∧
      b.value = FacetValue.a ∧ b.confidence = 4/5 := by
  have h := (mergeFacets_per_key_rules exWitnessMap incWitness "test" "t0" "facet_1"
      { value := FacetValue.a, confidence := 1/2 }
      (by simp [incWitness]) (by simp [incWitness])).2
      { value := FacetValue.a, confidence := 3/5, history := [] }
      FacetValue.a (4/5) "confidence_boost"
      (by simp [exWitnessMap])
  have hr : ((FacetValue.a, (4 : ℚ)/5, "confidence_boost") :
      FacetValue × ℚ × String) =
      (if max 0 (min 1 ((1:ℚ)/2)) = 1 then (FacetValue.a, (1 : ℚ), "user_confirmed")
       else if (3:ℚ)/5 = 1 then (FacetValue.a, (1 : ℚ), "existing_user_confirmed")
       else if FacetValue.a = FacetValue.a then
         (FacetValue.a, 1 - (1 - (3:ℚ)/5) * (1 - max 0 (min 1 ((1:ℚ)/2))),
          "confidence_boost")
       else if (3:ℚ)/5 < max 0 (min 1 ((1:ℚ)/2)) then
         (FacetValue.a, max 0 (min 1 ((1:ℚ)/2)), "higher_confidence_override")
       else (FacetValue.a, (3:ℚ)/5, "existing_retained")) := by
    rw [clampHalf, if_neg (by norm_num), if_neg (by norm_num), if_pos rfl]
    norm_num
  exact (h hr).1

/-- C2.  For a trait with an existing belief, a change record is emitted and
exactly one history entry is appended if and only if the computed
(value, confidence) pair differs from the stored pair; otherwise the merge
is a no-op for that trait (same belief object, no record), and an appended
entry extends the old history at the end, leaving prior entries intact and
ordered. -/
theorem mergeFacets_change_iff (existing : FacetMap)
    (incoming : List (String × FacetWithConfidence)) (source now k : String)
    (obs : FacetWithConfidence) (ex : FacetWithHistory)
    (hn : (incoming.map Prod.fst).Nodup) (hm : (k, obs) ∈ incoming)
    (hex : existing k = some ex) :
    ∃ b, (mergeFacets existing incoming source now).merged k = some b ∧
      ((b.value ≠ ex.value ∨ b.confidence ≠ ex.confidence) →
        b.history = ex.history ++
          [{ value := b.value, confidence := b.confidence,
             source := source, atTime := now }] ∧
        ∃ reason, ((mergeFacets existing incoming source now).changes).filter
            (fun c => c.facet == k) =
          [{ facet := k,
             previous := { value := ex.value, confidence := ex.confidence },
             current := { value := b.value, confidence := b.confidence },
             reason := reason }]) ∧
      (b.value = ex.value ∧ b.confidence = ex.confidence →
        b = ex ∧
        ((mergeFacets existing incoming source now).changes).filter
            (fun c => c.facet == k) = []) := by
  obtain ⟨hmerged, hchanges⟩ :=
    mergeFacets_at_key existing incoming source now k obs hn hm
  rw [hex] at hmerged hchanges
  by_cases hch : (decideMerge obs ex (clampConf obs.confidence)).1 ≠ ex.value ∨
      (decideMerge obs ex (clampConf obs.confidence)).2.1 ≠ ex.confidence
  · have hme : mergeEntry source now k (some ex) obs =
        ({ value := (decideMerge obs ex (clampConf obs.confidence)).1,
           confidence := (decideMerge obs ex (clampConf obs.confidence)).2.1,
           history := ex.history ++
             [{ value := (decideMerge obs ex (clampConf obs.confidence)).1,
                confidence := (decideMerge obs ex (clampConf obs.confidence)).2.1,
                source := source, atTime := now }] },
         some { facet := k,
                previous := { value := ex.value, confidence := ex.confidence },
                current := { value := (decideMerge obs ex (clampConf obs.confidence)).1,
                             confidence := (decideMerge obs ex (clampConf obs.confidence)).2.1 },
                reason := (decideMerge obs ex (clampConf obs.confidence)).2.2 }) := by
      simp only [mergeEntry]
      rw [if_pos hch]
    refine ⟨_, by rw [hmerged, hme], ?_, ?_⟩
    · intro _
      refine ⟨rfl, (decideMerge obs ex (clampConf obs.confidence)).2.2, ?_⟩
      rw [hchanges, hme]
      simp
    · intro habs
      rcases hch with h | h
      · exact absurd habs.1 h
      · exact absurd habs.2 h
  · push_neg at hch
    have hme : mergeEntry source now k (some ex) obs = (ex, none) := by
      simp only [mergeEntry]
      rw [if_neg]
      push_neg
      exact hch
    refine ⟨ex, by rw [hmerged, hme], ?_, ?_⟩
    · intro habs
      rcases habs with h | h
      · exact absurd rfl h
      · exact absurd rfl h
    · intro _
      refine ⟨rfl, ?_⟩
      rw [hchanges, hme]
      rfl

/-- Evaluation of one loop iteration on the witness scenario: reinforcing
(a, 0.6) with (a, 0.5) yields (a, 0.8) and a confidence_boost record. -/
theorem mergeEntry_boost_eval :
    mergeEntry "test" "t0" "facet_1"
      (some { value := FacetValue.a, confidence := 3/5, history := [] })
      { value := FacetValue.a, confidence := 1/2 } =
    ({ value := FacetValue.a, confidence := 4/5,
       history := [{ value := FacetValue.a, confidence := 4/5,
                     source := "test", atTime := "t0" }] },
     some { facet := "facet_1",
            previous := { value := FacetValue.a, confidence := 3/5 },
            current := { value := FacetValue.a, confidence := 4/5 },
            reason := "confidence_boost" }) := by
  have hclamp : clampConf ((1:ℚ)/2) = 1/2 := clampHalf
  have hdec : decideMerge { value := FacetValue.a, confidence := 1/2 }
      { value := FacetValue.a, confidence := 3/5, history := [] } (1/2) =
      (FacetValue.a, 4/5, "confidence_boost") := by
    unfold decideMerge
    rw [if_neg (by norm_num), if_neg (by norm_num), if_pos rfl]
    norm_num [combineConf]
  simp only [mergeEntry, hclamp, hdec]
  rw [if_pos (by norm_num)]
  norm_num

/-- Witness for C2 at the reinforcing observation: the pair changes from
(a, 0.6) to (a, 0.8), so the history gains exactly one entry and exactly
one record for facet_1 is present. -/
theorem mergeFacets_change_iff_witness :
    ∃ reason, ((mergeFacets exWitnessMap incWitness "test" "t0").changes).filter
        (fun c => c.facet == "facet_1") =
      [{ facet := "facet_1",
         previous := { value := FacetValue.a, confidence := 3/5 },
         current := { value := FacetValue.a, confidence := 4/5 },
         reason := reason }] := by
  obtain ⟨b, hb, himp, -⟩ := mergeFacets_change_iff exWitnessMap incWitness "test" "t0"
    "facet_1" { value := FacetValue.a, confidence := 1/2 }
    { value := FacetValue.a, confidence := 3/5, history := [] }
    (by simp [incWitness]) (by simp [incWitness]) (by simp [exWitnessMap])
  have heval := (mergeFacets_at_key exWitnessMap incWitness "test" "t0" "facet_1"
      { value := FacetValue.a, confidence := 1/2 }
      (by simp [incWitness]) (by simp [incWitness])).1
  rw [show exWitnessMap "facet_1" =
      some { value := FacetValue.a, confidence := 3/5, history := [] }
      by simp [exWitnessMap], mergeEntry_boost_eval] at heval
  rw [heval] at hb
  have hbeq := Option.some.inj hb
  rw [← hbeq] at himp
  obtain ⟨-, reason, hfilter⟩ := himp (Or.inr (by norm_num))
  exact ⟨reason, hfilter⟩

/-- Confidence sequence obtained by repeatedly reinforcing a belief of
confidence c0 with the same observation of confidence c (the
confidence_boost branch applied k times). -/
def reinforceSeq (c0 c : ℚ) : ℕ → ℚ
  | 0 => c0
  | k + 1 => combineConf (reinforceSeq c0 c k) c

theorem reinforceSeq_one_sub (c0 c : ℚ) :
    ∀ k, 1 - reinforceSeq c0 c k = (1 - c0) * (1 - c) ^ k := by
  intro k
  induction k with
  | zero => simp [reinforceSeq]
  | succ n ih =>
    show 1 - combineConf (reinforceSeq c0 c n) c = (1 - c0) * (1 - c) ^ (n + 1)
    unfold combineConf
    rw [pow_succ, ← mul_assoc, ← ih]
    ring

/-- Counterexample to C5 as stated: reinforcing with confidence 0 (an input
different from 1.0) leaves the sequence constant, so it is not strictly
increasing. -/
theorem reinforceSeq_not_strictly_increasing :
    reinforceSeq (1/2) 0 1 = reinforceSeq (1/2) 0 0 ∧
    ¬ reinforceSeq (1/2) 0 0 < reinforceSeq (1/2) 0 1 ∧
    ((0 : ℚ) ≠ 1) ∧ ((1 : ℚ)/2 ≠ 1) := by
  have h1 : reinforceSeq (1/2) 0 1 = 1/2 := by
    show combineConf (reinforceSeq (1/2) 0 0) 0 = 1/2
    show combineConf (1/2) 0 = 1/2
    unfold combineConf
    ring
  have h0 : reinforceSeq (1/2) 0 0 = 1/2 := rfl
  refine ⟨by rw [h0, h1], by rw [h0, h1]; exact lt_irrefl _, by norm_num, by norm_num⟩

/-- C5 (amended).  For a starting confidence in [0, 1) and a reinforcing
confidence strictly between 0 and 1, the reinforcement sequence is strictly
increasing, stays strictly below 1, and comes arbitrarily close to 1; and
the OR-combination is monotone non-decreasing in both inputs on (-∞, 1]. -/
theorem reinforceSeq_behaviour (c0 c : ℚ) (h00 : 0 ≤ c0) (h01 : c0 < 1)
    (hc0 : 0 < c) (hc1 : c < 1) :
    (∀ k, reinforceSeq c0 c k < reinforceSeq c0 c (k + 1)) ∧
    (∀ k, reinforceSeq c0 c k < 1) ∧
    (∀ ε : ℚ, 0 < ε → ∃ k, 1 - reinforceSeq c0 c k < ε) ∧
    (∀ o o₂ n n₂ : ℚ, o ≤ o₂ → n ≤ n₂ → o₂ ≤ 1 → n₂ ≤ 1 →
      combineConf o n ≤ combineConf o₂ n₂) := by
  have hlt1 : ∀ k, reinforceSeq c0 c k < 1 := by
    intro k
    have hpos : 0 < (1 - c0) * (1 - c) ^ k :=
      mul_pos (by linarith) (pow_pos (by linarith) k)
    have hk := reinforceSeq_one_sub c0 c k
    linarith
  refine ⟨?_, hlt1, ?_, ?_⟩
  · intro k
    show reinforceSeq c0 c k < combineConf (reinforceSeq c0 c k) c
    unfold combineConf
    have := hlt1 k
    nlinarith
  · intro ε hε
    obtain ⟨n, hn⟩ := exists_pow_lt_of_lt_one hε (show 1 - c < 1 by linarith)
    refine ⟨n, ?_⟩
    rw [reinforceSeq_one_sub]
    have h1 : (1 - c0) * (1 - c) ^ n ≤ 1 * (1 - c) ^ n :=
      mul_le_mul_of_nonneg_right (by linarith) (pow_nonneg (by linarith) n)
    calc (1 - c0) * (1 - c) ^ n ≤ (1 - c) ^ n := by linarith
      _ < ε := hn
  · intro o o₂ n n₂ ho hn2 ho2 hn21
    unfold combineConf
    have hm : (1 - o₂) * (1 - n₂) ≤ (1 - o) * (1 - n) :=
      mul_le_mul (by linarith) (by linarith) (by linarith) (by linarith)
    linarith

/-- Witness for the amended C5 at c0 = c = 1/2: the first reinforcement
strictly increases the confidence. -/
theorem reinforceSeq_behaviour_witness :
    reinforceSeq (1/2) (1/2) 0 < reinforceSeq (1/2) (1/2) 1 :=
  (reinforceSeq_behaviour (1/2) (1/2) (by norm_num) (by norm_num)
    (by norm_num) (by norm_num)).1 0

theorem clampConf_mem (c : ℚ) : 0 ≤ clampConf c ∧ clampConf c ≤ 1 :=
  ⟨le_max_left 0 _, max_le (by norm_num) (min_le_left 1 c)⟩

theorem combineConf_mem (o n : ℚ) (ho : 0 ≤ o) (ho1 : o ≤ 1)
    (hn : 0 ≤ n) (hn1 : n ≤ 1) :
    0 ≤ combineConf o n ∧ combineConf o n ≤ 1 := by
  unfold combineConf
  constructor <;> nlinarith

theorem decideMerge_conf_mem (obs : FacetWithConfidence) (ex : FacetWithHistory)
    (newConf : ℚ) (hex : 0 ≤ ex.confidence ∧ ex.confidence ≤ 1)
    (hn : 0 ≤ newConf ∧ newConf ≤ 1) :
    0 ≤ (decideMerge obs ex newConf).2.1 ∧ (decideMerge obs ex newConf).2.1 ≤ 1 := by
  unfold decideMerge
  split_ifs
  · exact ⟨by norm_num, by norm_num⟩
  · exact ⟨by norm_num, by norm_num⟩
  · exact combineConf_mem ex.confidence newConf hex.1 hex.2 hn.1 hn.2
  · exact hn
  · exact hex

theorem mergeEntry_conf_mem (source now k : String) (old? : Option FacetWithHistory)
    (obs : FacetWithConfidence)
    (hold : ∀ ex, old? = some ex → 0 ≤ ex.confidence ∧ ex.confidence ≤ 1) :
    0 ≤ (mergeEntry source now k old? obs).1.confidence ∧
      (mergeEntry source now k old? obs).1.confidence ≤ 1 := by
  unfold mergeEntry
  cases old? with
  | none => exact clampConf_mem obs.confidence
  | some ex =>
    simp only
    split
    · exact decideMerge_conf_mem obs ex (clampConf obs.confidence)
        (hold ex rfl) (clampConf_mem obs.confidence)
    · exact hold ex rfl

theorem foldl_conf_mem (source now : String) (l : List (String × FacetWithConfidence))
    (st : FacetMap × List FacetChangeResult)
    (hst : ∀ k b, st.1 k = some b → 0 ≤ b.confidence ∧ b.confidence ≤ 1) :
    ∀ k b, (l.foldl (mergeStep source now) st).1 k = some b →
      0 ≤ b.confidence ∧ b.confidence ≤ 1 := by
  induction l generalizing st with
  | nil => exact hst
  | cons e t ih =>
    rw [List.foldl_cons]
    refine ih _ ?_
    intro k b hkb
    by_cases hk : k = e.1
    · subst hk
      rw [show (mergeStep source now st e) = (mergeStep source now st (e.1, e.2)) from rfl,
        mergeStep_fst_self source now e.1 st e.2] at hkb
      have hb := Option.some.inj hkb
      rw [← hb]
      exact mergeEntry_conf_mem source now e.1 (st.1 e.1) e.2 (fun ex hex => hst e.1 ex hex)
    · rw [show (mergeStep source now st e) = (mergeStep source now st (e.1, e.2)) from rfl,
        mergeStep_fst_other source now e.1 k st e.2 hk] at hkb
      exact hst k b hkb

/-- C6.  The effective confidence used for an observation is the clamp
max(0, min(1, c)) — out-of-range input is corrected, never rejected — and
every confidence stored in the merged map lies in [0, 1] whenever every
confidence in the existing map does. -/
theorem mergeFacets_clamping (existing : FacetMap)
    (incoming : List (String × FacetWithConfidence)) (source now : String)
    (hex : ∀ k b, existing k = some b → 0 ≤ b.confidence ∧ b.confidence ≤ 1) :
    (∀ c : ℚ, clampConf c = max 0 (min 1 c)) ∧
    (∀ k b, (mergeFacets existing incoming source now).merged k = some b →
      0 ≤ b.confidence ∧ b.confidence ≤ 1) ∧
    (∀ k obs, (incoming.map Prod.fst).Nodup → (k, obs) ∈ incoming →
      existing k = none →
      ∃ b, (mergeFacets existing incoming source now).merged k = some b ∧
        b.confidence = max 0 (min 1 obs.confidence)) := by
  refine ⟨fun c => rfl, ?_, ?_⟩
  · exact foldl_conf_mem source now incoming (existing, []) hex
  · intro k obs hn hm hnone
    have h := (mergeFacets_at_key existing incoming source now k obs hn hm).1
    rw [hnone] at h
    exact ⟨_, h, rfl⟩

/-- The empty facet map (a fresh profile). -/
def emptyFacetMap : FacetMap := fun _ => none

/-- Incoming batch carrying an out-of-range confidence 1.5. -/
def incOutOfRange : List (String × FacetWithConfidence) :=
  [("facet_1", { value := FacetValue.a, confidence := 3/2 })]

/-- Witness for C6: an out-of-range confidence 1.5 is stored clamped. -/
theorem mergeFacets_clamping_witness :
    ∃ b, (mergeFacets emptyFacetMap incOutOfRange "test" "t0").merged "facet_1" =
        some b ∧ b.confidence = max 0 (min 1 ((3:ℚ)/2)) := by
  have h := (mergeFacets_clamping emptyFacetMap incOutOfRange "test" "t0"
    (by intro k b hb; simp [emptyFacetMap] at hb)).2.2
  exact h "facet_1" { value := FacetValue.a, confidence := 3/2 }
    (by simp [incOutOfRange]) (by simp [incOutOfRange]) rfl

/-- C8.  A trait present in existing and absent from incoming passes through
mergeFacets untouched: the merged map returns exactly the existing belief,
no change record names it, and no drift warning is keyed to it (the only
warning key not originating from a change record is the _global sentinel). -/
theorem mergeFacets_frame (existing : FacetMap)
    (incoming : List (String × FacetWithConfidence)) (source now k : String)
    (hk : k ∉ incoming.map Prod.fst) :
    (mergeFacets existing incoming source now).merged k = existing k ∧
    (∀ c ∈ (mergeFacets existing incoming source now).changes, c.facet ≠ k) ∧
    (∀ w ∈ (mergeFacets existing incoming source now).driftWarnings,
      w.facet = k → k = "_global") := by
  have hchanges : ∀ c ∈ (mergeFacets existing incoming source now).changes,
      c.facet ≠ k := by
    intro c hc
    rcases foldl_changes_facets source now incoming (existing, []) c hc with h | h
    · cases h
    · intro hck
      rw [hck] at h
      exact hk h
  refine ⟨foldl_merged_not_mem source now incoming (existing, []) k hk, hchanges, ?_⟩
  intro w hw hwk
  have : (mergeFacets existing incoming source now).driftWarnings =
      detectDrift (mergeFacets existing incoming source now).changes := rfl
  rw [this, detectDrift_eq, List.mem_append] at hw
  rcases hw with hw | hw
  · obtain ⟨c, hcmem, hcw⟩ := List.mem_map.1 hw
    have hcchanges : c ∈ (mergeFacets existing incoming source now).changes :=
      List.mem_of_mem_filter hcmem
    have : w.facet = c.facet := by rw [← hcw]; rfl
    exact absurd (by rw [← hwk, this]) (Ne.symm (hchanges c hcchanges))
  · split at hw
    · rw [List.mem_singleton] at hw
      rw [hw] at hwk
      exact hwk.symm
    · cases hw

/-- Witness for C8 at a key absent from the incoming batch. -/
theorem mergeFacets_frame_witness :
    (mergeFacets exWitnessMap incWitness "test" "t0").merged "facet_9" =
      exWitnessMap "facet_9" ∧
    ∀ c ∈ (mergeFacets exWitnessMap incWitness "test" "t0").changes,
      c.facet ≠ "facet_9" := by
  have h := mergeFacets_frame exWitnessMap incWitness "test" "t0" "facet_9"
    (by simp [incWitness])
  exact ⟨h.1, h.2.1⟩

/-- Output language, from types.ts: type Language = 'en' | 'ja'. -/
inductive Language where
  | en : Language
  | ja : Language
deriving DecidableEq

/-- formatFacetDisplay, embedded from templates.ts lines 32-42; the trait
catalog lookup getFacetLabel (facets.json data, a read-only collaborator) is
passed as a function argument. -/
def formatFacetDisplay (getFacetLabel : String → FacetValue → Language → String)
    (facetIndex : String) (facet : FacetWithHistory) (locale : Language) : String :=
  let label := getFacetLabel facetIndex facet.value locale
  if facet.confidence = 0 then "?"
  else if facet.confidence = 1 then label ++ " ✓"
  else if facet.confidence < 1/2 then "~" ++ label
  else label

/-- The Result cell of one row of the facet table of SOUL.md/IDENTITY.md
(templates.ts line 299): a facet with no stored belief renders "?". -/
def facetTableCell (getFacetLabel : String → FacetValue → Language → String)
    (facets : FacetMap) (facetIndex : String) (locale : Language) : String :=
  match facets facetIndex with
  | some facet => formatFacetDisplay getFacetLabel facetIndex facet locale
  | none => "?"

/-- C9.  The rendered facet display follows exactly four confidence tiers:
0 renders "?", (0, 0.5) prefixes "~" to the label, [0.5, 1) renders the
plain label, 1 appends the confirmed marker, and a missing belief renders
"?". -/
theorem facet_display_tiers (cat : String → FacetValue → Language → String)
    (idx : String) (facet : FacetWithHistory) (locale : Language) (facets : FacetMap) :
    (facet.confidence = 0 → formatFacetDisplay cat idx facet locale = "?") ∧
    (0 < facet.confidence → facet.confidence < 1/2 →
      formatFacetDisplay cat idx facet locale = "~" ++ cat idx facet.value locale) ∧
    (1/2 ≤ facet.confidence → facet.confidence < 1 →
      formatFacetDisplay cat idx facet locale = cat idx facet.value locale) ∧
    (facet.confidence = 1 →
      formatFacetDisplay cat idx facet locale = cat idx facet.value locale ++ " ✓") ∧
    (facets idx = none → facetTableCell cat facets idx locale = "?") := by
  refine ⟨?_, ?_, ?_, ?_, ?_⟩
  · intro h0
    unfold formatFacetDisplay
    rw [if_pos h0]
  · intro hpos hlt
    unfold formatFacetDisplay
    rw [if_neg (by linarith), if_neg (by intro h; rw [h] at hlt; norm_num at hlt),
      if_pos hlt]
  · intro hge hlt
    unfold formatFacetDisplay
    rw [if_neg (by linarith), if_neg (by linarith), if_neg (by linarith)]
  · intro h1
    unfold formatFacetDisplay
    rw [if_neg (by rw [h1]; norm_num), if_pos h1]
  · intro hnone
    unfold facetTableCell
    rw [hnone]

/-- Witness for C9 at confidence 3/4 (plain-label tier). -/
theorem facet_display_tiers_witness :
    formatFacetDisplay (fun _ _ _ => "Leader") "facet_3"
      { value := FacetValue.a, confidence := 3/4, history := [] } Language.en =
      "Leader" := by
  have h := (facet_display_tiers (fun _ _ _ => "Leader") "facet_3"
    { value := FacetValue.a, confidence := 3/4, history := [] } Language.en
    emptyFacetMap).2.2.1
  exact h (by norm_num) (by norm_num)

/-- Profile record, from types.ts ProfileData; the language and demographics
fields, irrelevant to the verified claims, are omitted. -/
structure ProfileData where
  id : String
  external_id : Option String
  name : String
  created_at : String
  updated_at : String
  version : ℕ
  facets : FacetMap

/-- One stored profile directory: profile.json, SOUL.md, IDENTITY.md
(fs-store.ts storage layout). -/
structure StoredProfile where
  profile : ProfileData
  soulMd : String
  identityMd : String

/-- The profiles directory, embedded as a map from profile id to its stored
record. -/
def Store : Type := String → Option StoredProfile

/-- The error thrown by FsProfileStore.save on a version mismatch
(constructed in fs-store.ts line 75 with id, expected and actual version). -/
structure VersionConflictError where
  profileId : String
  expected : ℕ
  actual : ℕ

/-- Writing one profile directory. -/
def storePut (st : Store) (id : String) (rec : StoredProfile) : Store :=
  fun q => if q = id then some rec else st q

/-- FsProfileStore.save, embedded from fs-store.ts lines 60-88: with an
expectedVersion, a stored record whose version differs makes the save throw
a VersionConflictError before any file is written (an unreadable/missing
profile.json means no conflict is possible); otherwise the three files are
written.  An error therefore leaves the store unchanged. -/
def storeSave (st : Store) (profile : ProfileData) (soulMd identityMd : String)
    (expectedVersion : Option ℕ) : Except VersionConflictError Store :=
  match expectedVersion with
  | some ev =>
    match st profile.id with
    | some existing =>
      if existing.profile.version ≠ ev then
        Except.error ⟨profile.id, ev, existing.profile.version⟩
      else
        Except.ok (storePut st profile.id ⟨profile, soulMd, identityMd⟩)
    | none => Except.ok (storePut st profile.id ⟨profile, soulMd, identityMd⟩)
  | none => Except.ok (storePut st profile.id ⟨profile, soulMd, identityMd⟩)

/-- Outcome of one update_profile call. -/
inductive ToolOutcome where
  | missingId : ToolOutcome
  | notFound : ToolOutcome
  | versionConflict : VersionConflictError → ToolOutcome
  | ok : Store → ProfileData → List FacetChangeResult → List DriftWarning → ToolOutcome

/-- The update_profile variant that passes the pre-merge loaded version to
save and maps a VersionConflictError to a structured VERSION_CONFLICT
failure.  The two store arguments are the state of the profiles directory
at the load and at the save (they differ exactly when a concurrent writer
intervened); demographics patching and the external-id lookup are omitted
as irrelevant to the claims. -/
def updateProfileChecked (loadStore saveStore : Store) (profileId? : Option String)
    (facets? : Option (List (String × FacetWithConfidence))) (now : String)
    (genSoul genIdentity : ProfileData → String)
    (soulMd? identityMd? : Option String) : ToolOutcome :=
  match profileId? with
  | none => ToolOutcome.missingId
  | some pid =>
    match loadStore pid with
    | none => ToolOutcome.notFound
    | some rec =>
      let profile := rec.profile
      let loadedVersion := profile.version
      let m : FacetMap × List FacetChangeResult × List DriftWarning :=
        match facets? with
        | some inc =>
          let r := mergeFacets profile.facets inc "text_analysis" now
          (r.merged, r.changes, r.driftWarnings)
        | none => (profile.facets, [], [])
      let profile2 : ProfileData :=
        { profile with facets := m.1, updated_at := now, version := profile.version + 1 }
      let soulMd := soulMd?.getD (genSoul profile2)
      let identityMd := identityMd?.getD (genIdentity profile2)
      match storeSave saveStore profile2 soulMd identityMd (some loadedVersion) with
      | Except.error e => ToolOutcome.versionConflict e
      | Except.ok st2 => ToolOutcome.ok st2 profile2 m.2.1 m.2.2

/-- The other update_profile variant present in the repository
(packages/mcp-server/src/tools/update-profile.ts line 118): it calls save
without an expectedVersion, so the save never performs the version check. -/
def updateProfileUnchecked (loadStore saveStore : Store) (profileId? : Option String)
    (facets? : Option (List (String × FacetWithConfidence))) (now : String)
    (genSoul genIdentity : ProfileData → String)
    (soulMd? identityMd? : Option String) : ToolOutcome :=
  match profileId? with
  | none => ToolOutcome.missingId
  | some pid =>
    match loadStore pid with
    | none => ToolOutcome.notFound
    | some rec =>
      let profile := rec.profile
      let m : FacetMap × List FacetChangeResult × List DriftWarning :=
        match facets? with
        | some inc =>
          let r := mergeFacets profile.facets inc "text_analysis" now
          (r.merged, r.changes, r.driftWarnings)
        | none => (profile.facets, [], [])
      let profile2 : ProfileData :=
        { profile with facets := m.1, updated_at := now, version := profile.version + 1 }
      let soulMd := soulMd?.getD (genSoul profile2)
      let identityMd := identityMd?.getD (genIdentity profile2)
      match storeSave saveStore profile2 soulMd identityMd none with
      | Except.error e => ToolOutcome.versionConflict e
      | Except.ok st2 => ToolOutcome.ok st2 profile2 m.2.1 m.2.2

def ToolOutcome.isVersionConflict : ToolOutcome → Bool
  | ToolOutcome.versionConflict _ => true
  | _ => false

/-- Version stored for one id after a successful call. -/
def ToolOutcome.storedVersionAt (k : String) : ToolOutcome → Option ℕ
  | ToolOutcome.ok st _ _ _ => (st k).map (fun r => r.profile.version)
  | _ => none

/-- Profile with a given version, for the concrete store scenarios. -/
def cexProfile (v : ℕ) : ProfileData :=
  { id := "p", external_id := none, name := "Alice", created_at := "t0",
    updated_at := "t0", version := v, facets := emptyFacetMap }

/-- The store as it was when the tool loaded: version 1. -/
def cexLoadStore : Store :=
  fun q => if q = "p" then some ⟨cexProfile 1, "S", "I"⟩ else none

/-- The store at save time: a concurrent writer moved it to version 5. -/
def cexSaveStore : Store :=
  fun q => if q = "p" then some ⟨cexProfile 5, "S2", "I2"⟩ else none

/-- Stand-in document renderer for the concrete scenarios. -/
def cexGen : ProfileData → String := fun _ => "doc"

/-- Counterexample to C7 as stated: the update_profile variant at
packages/mcp-server/src/tools/update-profile.ts saves without an
expectedVersion, so with the stored version moved from 1 (loaded) to 5
(concurrent write) it raises no VERSION_CONFLICT and overwrites the record
(storing loaded + 1 = 2), contradicting that every save performed by the
update_profile tool passes the pre-merge version and surfaces conflicts. -/
theorem update_profile_unchecked_cex :
    (cexLoadStore "p").map (fun r => r.profile.version) = some 1 ∧
    (cexSaveStore "p").map (fun r => r.profile.version) = some 5 ∧
    ToolOutcome.isVersionConflict
      (updateProfileUnchecked cexLoadStore cexSaveStore (some "p") none "t1"
        cexGen cexGen none none) = false ∧
    ToolOutcome.storedVersionAt "p"
      (updateProfileUnchecked cexLoadStore cexSaveStore (some "p") none "t1"
        cexGen cexGen none none) = some 2 := by
  refine ⟨rfl, rfl, ?_, ?_⟩
  · rfl
  · rfl

/-- C7 (amended).  The store-level guard: save with an expectedVersion fails
with a VersionConflictError carrying (id, expected, actual) iff a record for
that id exists with a different version (an error performs no write in this
model); with no stored record the save succeeds (first write wins).  The
conflict-checked update_profile variant passes the loaded version to save,
returns a structured conflict when the stored version moved, and on success
writes the merged profile with version loaded + 1.  (The repository also
contains the unchecked variant, which skips all of this.) -/
theorem version_guard_behaviour :
    (∀ (st : Store) (p : ProfileData) (s i : String) (ev : ℕ) (rec : StoredProfile),
      st p.id = some rec → rec.profile.version ≠ ev →
      storeSave st p s i (some ev) =
        Except.error ⟨p.id, ev, rec.profile.version⟩) ∧
    (∀ (st : Store) (p : ProfileData) (s i : String) (ev : ℕ) (rec : StoredProfile),
      st p.id = some rec → rec.profile.version = ev →
      storeSave st p s i (some ev) =
        Except.ok (storePut st p.id ⟨p, s, i⟩)) ∧
    (∀ (st : Store) (p : ProfileData) (s i : String) (ev : ℕ),
      st p.id = none →
      storeSave st p s i (some ev) = Except.ok (storePut st p.id ⟨p, s, i⟩)) ∧
    (∀ (ls ss : Store) (pid : String)
      (facets? : Option (List (String × FacetWithConfidence))) (now : String)
      (g1 g2 : ProfileData → String) (s? i? : Option String)
      (rec rec2 : StoredProfile),
      ls pid = some rec → ss rec.profile.id = some rec2 →
      rec2.profile.version ≠ rec.profile.version →
      updateProfileChecked ls ss (some pid) facets? now g1 g2 s? i? =
        ToolOutcome.versionConflict
          ⟨rec.profile.id, rec.profile.version, rec2.profile.version⟩) ∧
    (∀ (ls ss : Store) (pid : String)
      (facets? : Option (List (String × FacetWithConfidence))) (now : String)
      (g1 g2 : ProfileData → String) (s? i? : Option String)
      (rec : StoredProfile),
      ls pid = some rec → ss rec.profile.id = none →
      ∃ st2 p2 ch dw,
        updateProfileChecked ls ss (some pid) facets? now g1 g2 s? i? =
          ToolOutcome.ok st2 p2 ch dw ∧
        p2.version = rec.profile.version + 1 ∧
        st2 rec.profile.id = some ⟨p2, s?.getD (g1 p2), i?.getD (g2 p2)⟩) := by
  refine ⟨?_, ?_, ?_, ?_, ?_⟩
  · intro st p s i ev rec hrec hne
    unfold storeSave
    rw [hrec]
    simp only
    rw [if_pos hne]
  · intro st p s i ev rec hrec heq
    unfold storeSave
    rw [hrec]
    simp only
    rw [if_neg (by simp [heq])]
  · intro st p s i ev hnone
    unfold storeSave
    rw [hnone]
  · intro ls ss pid facets? now g1 g2 s? i? rec rec2 hload hsave hne
    unfold updateProfileChecked
    dsimp only
    rw [hload]
    unfold storeSave
    dsimp only
    rw [hsave]
    dsimp only
    rw [if_pos hne]
  · intro ls ss pid facets? now g1 g2 s? i? rec hload hsave
    unfold updateProfileChecked
    dsimp only
    rw [hload]
    unfold storeSave
    dsimp only
    rw [hsave]
    dsimp only
    refine ⟨_, _, _, _, rfl, rfl, ?_⟩
    unfold storePut
    rw [if_pos rfl]

/-- Witness for the amended C7: on the concrete stores where the version
moved from 1 to 5, the checked variant surfaces a VERSION_CONFLICT. -/
theorem version_guard_behaviour_witness :
    updateProfileChecked cexLoadStore cexSaveStore (some "p") none "t1"
      cexGen cexGen none none =
      ToolOutcome.versionConflict ⟨"p", 1, 5⟩ := by
  have h := version_guard_behaviour.2.2.2.1 cexLoadStore cexSaveStore "p"
    none "t1" cexGen cexGen none none
    ⟨cexProfile 1, "S", "I"⟩ ⟨cexProfile 5, "S2", "I2"⟩ rfl rfl (by norm_num [cexProfile])
  exact h

end OpenPersonality
